import Mathlib

/-
Verification of the staking/distribution module of the multi-test package
(src/packages/multi-test/src/staking.rs).

Shallow embedding conventions:
  - cosmwasm Decimal is a fixed-point number with 18 fractional decimal
    digits, stored as 128-bit atomics.  We model it as a Nat holding the
    atomics (value = atomics / 10^18).  Multiplication and division floor,
    exactly as the Rust implementation does.
  - Uint128 token amounts are modelled as Nat.  checked_add / checked_sub
    are modelled with their explicit bound / underflow conditions, since
    those produce returned errors in the source.  Arithmetic that panics in
    Rust (Decimal subtraction underflow, Decimal division by zero,
    Timestamp underflow) is modelled with Option / dedicated panic error
    constructors, kept distinct from the returned-error constructors.
  - Timestamps are Nat nanoseconds, as in cosmwasm Timestamp.
  - The staking namespace of the key-value store is a record of maps,
    modelled as association lists plus Option-typed Items.  Map.save /
    Map.remove are modelled by asave / aremove; Item.load failure is the
    stakingInfoNotFound error, Item.may_load().unwrap_or_default() is getD.
-/

deriving instance DecidableEq for Except

namespace CW

abbrev Addr := String

/-- DECIMAL_FRACTIONAL of cosmwasm Decimal: one whole unit is 10^18 atomics. -/
def DECIMAL_FRACTIONAL : Nat := 10 ^ 18

/-- Decimal::one(), as atomics. -/
def decOne : Nat := DECIMAL_FRACTIONAL

/-- Decimal::percent(p), as atomics. -/
def decPercent (p : Nat) : Nat := p * 10 ^ 16

/-- Decimal::from_ratio(num, den) and also Decimal division of atomics:
Div for Decimal is from_ratio over the atomics.  Floors, as in the source.
Callers must ensure den is nonzero; the zero case is handled by decDiv. -/
def decFromFrac (num den : Nat) : Nat := num * DECIMAL_FRACTIONAL / den

/-- Mul for Decimal: floor of the product of the values, on atomics. -/
def decMul (a b : Nat) : Nat := a * b / DECIMAL_FRACTIONAL

/-- Div for Decimal.  Division by zero panics in the source
(checked_from_ratio returns DivideByZero and Div unwraps it); the panic is
modelled as none. -/
def decDiv (a b : Nat) : Option Nat :=
  if b = 0 then none else some (decFromFrac a b)

/-- Sub for Decimal: panics on underflow in the source; none models the panic. -/
def decSub (a b : Nat) : Option Nat :=
  if b ≤ a then some (a - b) else none

/-- Mul of Uint128 by Decimal (both operand orders in the source use this):
multiply_ratio(atomics, DECIMAL_FRACTIONAL), which floors. -/
def mulUintDec (u d : Nat) : Nat := u * d / DECIMAL_FRACTIONAL

def NANOS_PER_SECOND : Nat := 1000000000

/-- Timestamp::seconds(). -/
def tsSeconds (t : Nat) : Nat := t / NANOS_PER_SECOND

/-- Timestamp::plus_seconds(). -/
def tsPlusSeconds (t s : Nat) : Nat := t + s * NANOS_PER_SECOND

/-- Timestamp::minus_seconds(): panics on underflow (modelled as none). -/
def tsMinusSeconds (t s : Nat) : Option Nat :=
  if s * NANOS_PER_SECOND ≤ t then some (t - s * NANOS_PER_SECOND) else none

/-- The number of seconds in a year, used by the reward formula. -/
def seconds_per_year : Nat := 60 * 60 * 24 * 365

/-- A coin: denomination plus integer amount. -/
structure Coin where
  denom : String
  amount : Nat
deriving DecidableEq

/-- StakingInfo: general staking parameters of the module. -/
structure StakingInfo where
  bonded_denom : String
  unbonding_time : Nat
  apr : Nat
deriving DecidableEq

/-- Validator record of the validator registry (cosmwasm Validator). -/
structure Validator where
  address : String
  commission : Nat
  max_commission : Nat
  max_change_rate : Nat
deriving DecidableEq

/-- Shares: the number of (conceptual, fractional) shares of a validator a
staker holds, as Decimal atomics. -/
structure Shares where
  val : Nat
deriving DecidableEq

/-- ValidatorInfo: operational data about a validator. -/
structure ValidatorInfo where
  stakers : Finset Addr
  stake : Nat
  last_rewards_calculation : Nat
  total_shares : Nat
  calculated_rewards : Nat
deriving DecidableEq

/-- ValidatorInfo::new(block_time). -/
def ValidatorInfo.new (block_time : Nat) : ValidatorInfo :=
  { stakers := ∅
    stake := 0
    last_rewards_calculation := block_time
    total_shares := 0
    calculated_rewards := 0 }

/-- Shares::stake: the stake of this delegator, self.0 / total_shares * stake.
The division panics when total_shares is zero (none). -/
def Shares.stake (s : Shares) (validator : ValidatorInfo) : Option Nat :=
  match decDiv s.val validator.total_shares with
  | none => none
  | some q => some (mulUintDec validator.stake q)

/-- Shares::rewards: self.0 * rewards / total_shares, with the same
division-by-zero panic. -/
def Shares.rewards (s : Shares) (validator : ValidatorInfo) (rewards : Nat) : Option Nat :=
  decDiv (decMul s.val rewards) validator.total_shares

/-- ValidatorInfo::shares_for: the shares credited for staking the given
amount of tokens.  When the current stake is zero the source returns
Decimal::one() (a constant single share); otherwise
from_ratio(stake, 1) * total_shares / from_ratio(self.stake, 1). -/
def ValidatorInfo.shares_for (v : ValidatorInfo) (stake : Nat) : Nat :=
  if v.stake = 0 then decOne
  else decFromFrac (decMul (decFromFrac stake 1) v.total_shares) (decFromFrac v.stake 1)

/-- Errors and panics of the embedded operations.  Constructors whose name
starts with panic model Rust panics (aborts); the others model returned
errors (anyhow errors or checked-arithmetic errors propagated with the
question-mark operator). -/
inductive StakeError where
  | wrongDenom
  | zeroAmount
  | validatorNotFound
  | validatorInfoNotFound
  | stakingInfoNotFound
  | delegationNotFound
  | stakeUnderflow
  | stakeOverflow
  | invalidPercentage
  | panicSharesUnderflow
  | panicTotalSharesUnderflow
  | panicRewards
  | panicDivByZero
  | panicRewardsUnderflow
deriving DecidableEq, Fintype

/-- Classifies the error constructors that model Rust panics rather than
returned errors. -/
def StakeError.isPanic : StakeError → Bool
  | .panicSharesUnderflow => true
  | .panicTotalSharesUnderflow => true
  | .panicRewards => true
  | .panicDivByZero => true
  | .panicRewardsUnderflow => true
  | _ => false

/-- The staking namespace of the storage: the Items and Maps declared at the
top of the source file. -/
structure Storage where
  staking_info : Option StakingInfo
  stakes : List ((Addr × Addr) × Shares)
  validator_map : List (Addr × Validator)
  validators : List Validator
  validator_info : List (Addr × ValidatorInfo)
  unbonding_queue : Option (List (Addr × Nat × Nat))
deriving DecidableEq

/-- Association-list lookup modelling Map::may_load. -/
def alookup {κ : Type} {β : Type} [DecidableEq κ] : List (κ × β) → κ → Option β
  | [], _ => none
  | e :: rest, k => if e.1 = k then some e.2 else alookup rest k

/-- Association-list removal modelling Map::remove. -/
def aremove {κ : Type} {β : Type} [DecidableEq κ] : List (κ × β) → κ → List (κ × β)
  | [], _ => []
  | e :: rest, k => if e.1 = k then aremove rest k else e :: aremove rest k

/-- Association-list write modelling Map::save (insert or overwrite). -/
def asave {κ : Type} {β : Type} [DecidableEq κ] (l : List (κ × β)) (k : κ) (v : β) :
    List (κ × β) :=
  (k, v) :: aremove l k

/-- get_staking_info: STAKING_INFO.may_load with the documented defaults
(bonded denom TOKEN, 60 seconds unbonding, 10 percent APR). -/
def get_staking_info (st : Storage) : StakingInfo :=
  st.staking_info.getD
    { bonded_denom := "TOKEN", unbonding_time := 60, apr := decPercent 10 }

/-- calculate_rewards: the net reward accrued between the two timestamps,
from_ratio(stake,1) * interest_rate * from_ratio(elapsed,1)
  / from_ratio(seconds_per_year,1), minus commission on it.
The outcome is none when Timestamp::minus_seconds or the final Decimal
subtraction would panic. -/
def calculate_rewards (current_time since : Nat) (interest_rate validator_commission : Nat)
    (stake : Nat) : Option Nat :=
  match tsMinusSeconds current_time (tsSeconds since) with
  | none => none
  | some t =>
    let time_diff := tsSeconds t
    let reward :=
      decFromFrac
        (decMul (decMul (decFromFrac stake 1) interest_rate) (decFromFrac time_diff 1))
        (decFromFrac seconds_per_year 1)
    decSub reward (decMul reward validator_commission)

/-- update_rewards: mutates the validator info by folding the newly accrued
net reward into calculated_rewards, but only when the block time has
advanced and the new reward is at least one whole token; otherwise both the
accumulator and the checkpoint timestamp are left unchanged. -/
def update_rewards (block_time : Nat) (staking_info : StakingInfo)
    (validator_info : ValidatorInfo) (validator : Validator) : Option ValidatorInfo :=
  if block_time ≤ validator_info.last_rewards_calculation then some validator_info
  else
    match calculate_rewards block_time validator_info.last_rewards_calculation
        staking_info.apr validator.commission validator_info.stake with
    | none => none
    | some new_rewards =>
      if decOne ≤ new_rewards then
        some { validator_info with
                last_rewards_calculation := block_time
                calculated_rewards := validator_info.calculated_rewards + new_rewards }
      else some validator_info

/-- The reward-update block at the start of update_stake: when the amount is
nonzero, loads the validator record (an error when absent) and runs
update_rewards with the staking parameters. -/
def update_stake_rewards (st : Storage) (block_time : Nat) (validator : Addr)
    (validator_info : ValidatorInfo) (amount : Nat) : Except StakeError ValidatorInfo :=
  if amount ≠ 0 then
    match alookup st.validator_map validator with
    | none => .error .validatorNotFound
    | some validator_obj =>
      match update_rewards block_time (get_staking_info st) validator_info validator_obj with
      | none => .error .panicRewards
      | some vi => .ok vi
  else .ok validator_info

/-- The arithmetic block of update_stake.  In the sub branch the source
subtracts the shares from the delegator balance (a Decimal subtraction that
panics on underflow), then checked_sub on the validator stake (a returned
error), then subtracts the shares from total_shares (again a panic on
underflow).  In the add branch the shares are added and checked_add on the
stake returns an error above the Uint128 range. -/
def update_stake_math (vi : ValidatorInfo) (stake_info : Shares) (amount : Nat)
    (sub : Bool) : Except StakeError (Shares × ValidatorInfo) :=
  if sub then
    match decSub stake_info.val (vi.shares_for amount) with
    | none => .error .panicSharesUnderflow
    | some si2 =>
      if amount ≤ vi.stake then
        match decSub vi.total_shares (vi.shares_for amount) with
        | none => .error .panicTotalSharesUnderflow
        | some ts2 =>
          .ok (⟨si2⟩, { vi with stake := vi.stake - amount, total_shares := ts2 })
      else .error .stakeUnderflow
  else
    if vi.stake + amount < 2 ^ 128 then
      .ok (⟨stake_info.val + vi.shares_for amount⟩,
        { vi with stake := vi.stake + amount,
                  total_shares := vi.total_shares + vi.shares_for amount })
    else .error .stakeOverflow

/-- update_stake: loads the validator info (creating a fresh one when
absent) and the delegation entry, checkpoints rewards, applies the share
arithmetic, and persists: a zero resulting balance deletes the entry and
the staker-set membership, a nonzero one saves the entry and inserts the
staker. -/
def update_stake (st : Storage) (block_time : Nat) (delegator validator : Addr)
    (amount : Nat) (sub : Bool) : Except StakeError Storage :=
  match update_stake_rewards st block_time validator
      ((alookup st.validator_info validator).getD (ValidatorInfo.new block_time)) amount with
  | .error e => .error e
  | .ok vi =>
    match update_stake_math vi ((alookup st.stakes (delegator, validator)).getD ⟨0⟩)
        amount sub with
    | .error e => .error e
    | .ok svi =>
      if svi.1.val = 0 then
        .ok { st with
              stakes := aremove st.stakes (delegator, validator)
              validator_info := asave st.validator_info validator
                { svi.2 with stakers := svi.2.stakers.erase delegator } }
      else
        .ok { st with
              stakes := asave st.stakes (delegator, validator) svi.1
              validator_info := asave st.validator_info validator
                { svi.2 with stakers := insert delegator svi.2.stakers } }

/-- add_stake: validate_denom, validate_nonzero, then update_stake adding. -/
def add_stake (st : Storage) (block_time : Nat) (to_address validator : Addr)
    (amount : Coin) : Except StakeError Storage :=
  if amount.denom = (get_staking_info st).bonded_denom then
    if amount.amount = 0 then .error .zeroAmount
    else update_stake st block_time to_address validator amount.amount false
  else .error .wrongDenom

/-- remove_stake: validate_denom, validate_nonzero, then update_stake
subtracting. -/
def remove_stake (st : Storage) (block_time : Nat) (from_address validator : Addr)
    (amount : Coin) : Except StakeError Storage :=
  if amount.denom = (get_staking_info st).bonded_denom then
    if amount.amount = 0 then .error .zeroAmount
    else update_stake st block_time from_address validator amount.amount true
  else .error .wrongDenom

/-- slash: loads the validator info (error when absent), scales the stake by
one minus the percentage (the Decimal subtraction panics above 100 percent,
which validate_percentage rules out at the sudo entry), and on a resulting
zero stake removes the delegation entries of all stakers, clears the staker
set and zeroes total_shares. -/
def slash (st : Storage) (validator : Addr) (percentage : Nat) : Except StakeError Storage :=
  match alookup st.validator_info validator with
  | none => .error .validatorInfoNotFound
  | some validator_info =>
    match decSub decOne percentage with
    | none => .error .panicRewardsUnderflow
    | some remaining_percentage =>
      if mulUintDec validator_info.stake remaining_percentage = 0 then
        .ok { st with
              stakes := (st.stakes.filter fun e =>
                ¬(e.1.2 = validator ∧ e.1.1 ∈ validator_info.stakers))
              validator_info := asave st.validator_info validator
                { validator_info with
                    stake := mulUintDec validator_info.stake remaining_percentage
                    stakers := ∅
                    total_shares := 0 } }
      else
        .ok { st with
              validator_info := asave st.validator_info validator
                { validator_info with
                    stake := mulUintDec validator_info.stake remaining_percentage } }

/-- validate_percentage followed by slash: the Slash sudo entry point. -/
def sudo_slash (st : Storage) (validator : Addr) (percentage : Nat) :
    Except StakeError Storage :=
  if percentage ≤ decOne then slash st validator percentage
  else .error .invalidPercentage

/-- The Undelegate execute arm: validate_denom, validate_nonzero,
remove_stake, then load the unbonding queue and push the new entry
(sender, block time + unbonding duration, amount) onto the in-memory copy.
The source never calls UNBONDING_QUEUE.save here, so the pushed queue is
discarded and the returned storage keeps the old queue. -/
def execute_undelegate (st : Storage) (block_time : Nat) (sender validator : Addr)
    (amount : Coin) : Except StakeError Storage :=
  if amount.denom = (get_staking_info st).bonded_denom then
    if amount.amount = 0 then .error .zeroAmount
    else
      match remove_stake st block_time sender validator amount with
      | .error e => .error e
      | .ok st2 =>
        let staking_info := get_staking_info st2
        let queue := st2.unbonding_queue.getD []
        let _pushed :=
          queue ++ [(sender, tsPlusSeconds block_time staking_info.unbonding_time,
            amount.amount)]
        .ok st2
  else .error .wrongDenom

/-- The Redelegate execute arm: remove_stake from the source validator, then
add_stake to the destination validator for the same amount. -/
def execute_redelegate (st : Storage) (block_time : Nat) (sender src_validator
    dst_validator : Addr) (amount : Coin) : Except StakeError Storage :=
  match remove_stake st block_time sender src_validator amount with
  | .error e => .error e
  | .ok st2 => add_stake st2 block_time sender dst_validator amount

/-- The Delegate execute arm restricted to the staking namespace: add_stake
(the bank transfer into escrow is issued by the router afterwards). -/
def execute_delegate (st : Storage) (block_time : Nat) (sender validator : Addr)
    (amount : Coin) : Except StakeError Storage :=
  add_stake st block_time sender validator amount

/-- The loop of the ProcessQueue sudo arm: while the head of the in-memory
queue has a payout time not after the block time, pop it and emit a bank
send of the amount in the bonded denomination to the delegator.  Returns
the remaining in-memory queue and the emitted sends in order. -/
def process_queue_loop (denom : String) (time : Nat) :
    List (Addr × Nat × Nat) → List (Addr × Nat × Nat) × List (Addr × String × Nat)
  | [] => ([], [])
  | (delegator, payout_at, amount) :: rest =>
    if payout_at ≤ time then
      let r := process_queue_loop denom time rest
      (r.1, (delegator, denom, amount) :: r.2)
    else ((delegator, payout_at, amount) :: rest, [])

/-- The ProcessQueue sudo arm: loads the queue, drains the due entries into
bank sends, and returns.  The source never calls UNBONDING_QUEUE.save, so
the staking storage is returned unchanged and the drained entries stay in
the persisted queue. -/
def process_queue (st : Storage) (time : Nat) : Storage × List (Addr × String × Nat) :=
  let queue := st.unbonding_queue.getD []
  let denom := (get_staking_info st).bonded_denom
  let r := process_queue_loop denom time queue
  (st, r.2)

/-- The WithdrawDelegatorReward execute arm of the distribution keeper:
loads the staking info with Item::load (an error when setup never ran, with
no fallback to the defaults), loads validator info, record and delegation
(errors when absent), checkpoints rewards, debits the full fixed-point
pro-rata reward from calculated_rewards, persists the validator info, and
mints the reward truncated to whole tokens.  The minted amount is returned
alongside the new storage. -/
def execute_withdraw (st : Storage) (block_time : Nat) (sender validator : Addr) :
    Except StakeError (Storage × Nat) :=
  match st.staking_info with
  | none => .error .stakingInfoNotFound
  | some staking_info =>
    match alookup st.validator_info validator with
    | none => .error .validatorInfoNotFound
    | some validator_info =>
      match alookup st.validator_map validator with
      | none => .error .validatorNotFound
      | some validator_obj =>
        match update_rewards block_time staking_info validator_info validator_obj with
        | none => .error .panicRewards
        | some vi =>
          match alookup st.stakes (sender, validator) with
          | none => .error .delegationNotFound
          | some shares =>
            match shares.rewards vi vi.calculated_rewards with
            | none => .error .panicDivByZero
            | some rew =>
              match decSub vi.calculated_rewards rew with
              | none => .error .panicRewardsUnderflow
              | some cr2 =>
                .ok ({ st with
                        validator_info := asave st.validator_info validator
                          { vi with calculated_rewards := cr2 } },
                  mulUintDec 1 rew)


/-- Lookup after a save at the same key yields the saved value. -/
theorem alookup_asave_self {κ β : Type} [DecidableEq κ] (l : List (κ × β)) (k : κ) (v : β) :
    alookup (asave l k v) k = some v := by
  simp [asave, alookup]

/-- Removal never leaves a binding for the removed key. -/
theorem alookup_aremove_self {κ β : Type} [DecidableEq κ] (l : List (κ × β)) (k : κ) :
    alookup (aremove l k) k = none := by
  induction l with
  | nil => rfl
  | cons e rest ih =>
    by_cases he : e.1 = k
    · simpa [aremove, he] using ih
    · simpa [aremove, alookup, he] using ih

/-- Removal at one key does not change lookups at another. -/
theorem alookup_aremove_ne {κ β : Type} [DecidableEq κ] (l : List (κ × β)) (k k2 : κ)
    (h : k2 ≠ k) : alookup (aremove l k) k2 = alookup l k2 := by
  induction l with
  | nil => rfl
  | cons e rest ih =>
    by_cases he : e.1 = k
    · have hk : ¬k = k2 := fun hh => h hh.symm
      simp [aremove, alookup, he, hk, ih]
    · simp [aremove, alookup, he, ih]

/-- A save at one key does not change lookups at another. -/
theorem alookup_asave_ne {κ β : Type} [DecidableEq κ] (l : List (κ × β)) (k k2 : κ) (v : β)
    (h : k2 ≠ k) : alookup (asave l k v) k2 = alookup l k2 := by
  have : k ≠ k2 := fun hh => h hh.symm
  simp [asave, alookup, this, alookup_aremove_ne l k k2 h]

/-- Filtering with a predicate that keeps every binding of a key does not
change the lookup at that key. -/
theorem alookup_filter_keep {κ β : Type} [DecidableEq κ] (p : κ × β → Bool)
    (l : List (κ × β)) (k : κ) (hp : ∀ b, p (k, b) = true) :
    alookup (l.filter p) k = alookup l k := by
  induction l with
  | nil => rfl
  | cons e rest ih =>
    by_cases hpe : p e = true
    · simp [List.filter, hpe, alookup, ih]
    · have hne : e.1 ≠ k := by
        intro hh
        exact hpe (by rw [show e = (k, e.2) by rw [← hh]] ; exact hp e.2)
      simp [List.filter, hpe, alookup, hne, ih]

/-- Filtering with a predicate that drops every binding of a key removes the
key entirely. -/
theorem alookup_filter_drop {κ β : Type} [DecidableEq κ] (p : κ × β → Bool)
    (l : List (κ × β)) (k : κ) (hp : ∀ b, p (k, b) = false) :
    alookup (l.filter p) k = none := by
  induction l with
  | nil => rfl
  | cons e rest ih =>
    by_cases hpe : p e = true
    · have hne : e.1 ≠ k := by
        intro hh
        rw [show e = (k, e.2) by rw [← hh], hp e.2] at hpe
        exact Bool.false_ne_true hpe
      simp [List.filter, hpe, alookup, hne, ih]
    · simp [List.filter, hpe, ih]

/-- update_rewards only touches the checkpoint timestamp and the rewards
accumulator. -/
theorem update_rewards_fields {t : Nat} {info : StakingInfo} {vi vi2 : ValidatorInfo}
    {vobj : Validator} (h : update_rewards t info vi vobj = some vi2) :
    vi2.stakers = vi.stakers ∧ vi2.stake = vi.stake ∧ vi2.total_shares = vi.total_shares := by
  unfold update_rewards at h
  split at h
  · cases h; exact ⟨rfl, rfl, rfl⟩
  · split at h
    · cases h
    · split at h
      · cases h; exact ⟨rfl, rfl, rfl⟩
      · cases h; exact ⟨rfl, rfl, rfl⟩

/-- The reward block of update_stake preserves the staker set. -/
theorem update_stake_rewards_stakers {st : Storage} {t : Nat} {v : Addr}
    {vi vi2 : ValidatorInfo} {a : Nat} (h : update_stake_rewards st t v vi a = .ok vi2) :
    vi2.stakers = vi.stakers := by
  unfold update_stake_rewards at h
  split at h
  · split at h
    · cases h
    · split at h
      · cases h
      · cases h; exact (update_rewards_fields (by assumption)).1
  · cases h; rfl

/-- The arithmetic block of update_stake preserves the staker set. -/
theorem update_stake_math_stakers {vi : ValidatorInfo} {si : Shares} {a : Nat} {sb : Bool}
    {si2 : Shares} {vi2 : ValidatorInfo} (h : update_stake_math vi si a sb = .ok (si2, vi2)) :
    vi2.stakers = vi.stakers := by
  unfold update_stake_math at h
  split at h
  · split at h
    · cases h
    · split at h
      · split at h
        · cases h
        · simp only [Except.ok.injEq, Prod.mk.injEq] at h
          rw [← h.2]
      · cases h
  · split at h
    · simp only [Except.ok.injEq, Prod.mk.injEq] at h
      rw [← h.2]
    · cases h

/-- Successful update_stake writes exactly one delegation key and one
validator-info key: the entry is deleted together with the staker-set
membership when the resulting balance is zero, and saved together with the
membership otherwise. -/
theorem update_stake_shape {st : Storage} {t : Nat} {d v : Addr} {a : Nat} {sb : Bool}
    {st2 : Storage} (h : update_stake st t d v a sb = .ok st2) :
    ∃ (si2 : Shares) (vi2 : ValidatorInfo),
      vi2.stakers = ((alookup st.validator_info v).getD (ValidatorInfo.new t)).stakers ∧
      ((si2.val = 0 ∧
          st2 = { st with
                  stakes := aremove st.stakes (d, v)
                  validator_info := asave st.validator_info v
                    { vi2 with stakers := vi2.stakers.erase d } }) ∨
        (si2.val ≠ 0 ∧
          st2 = { st with
                  stakes := asave st.stakes (d, v) si2
                  validator_info := asave st.validator_info v
                    { vi2 with stakers := insert d vi2.stakers } })) := by
  unfold update_stake at h
  split at h
  · cases h
  · rename_i vi hrew
    split at h
    · cases h
    · rename_i svi hmath
      obtain ⟨s1, v2⟩ := svi
      refine ⟨s1, v2, ?_, ?_⟩
      · rw [update_stake_math_stakers hmath, update_stake_rewards_stakers hrew]
      · split at h
        · cases h
          exact Or.inl ⟨by assumption, rfl⟩
        · cases h
          exact Or.inr ⟨by assumption, rfl⟩

/-- Successful update_stake leaves every storage field outside the stakes
and validator-info maps unchanged, in particular the persisted unbonding
queue and the staking parameters. -/
theorem update_stake_frame {st : Storage} {t : Nat} {d v : Addr} {a : Nat} {sb : Bool}
    {st2 : Storage} (h : update_stake st t d v a sb = .ok st2) :
    st2.unbonding_queue = st.unbonding_queue ∧ st2.staking_info = st.staking_info ∧
      st2.validator_map = st.validator_map ∧ st2.validators = st.validators := by
  obtain ⟨si2, vi2, _, hcase⟩ := update_stake_shape h
  rcases hcase with ⟨_, rfl⟩ | ⟨_, rfl⟩ <;> exact ⟨rfl, rfl, rfl, rfl⟩

/-- Successful remove_stake is a successful subtracting update_stake. -/
theorem remove_stake_ok {st : Storage} {t : Nat} {d v : Addr} {c : Coin} {st2 : Storage}
    (h : remove_stake st t d v c = .ok st2) :
    update_stake st t d v c.amount true = .ok st2 := by
  unfold remove_stake at h
  split at h
  · split at h
    · cases h
    · exact h
  · cases h

/-- Successful add_stake is a successful adding update_stake. -/
theorem add_stake_ok {st : Storage} {t : Nat} {d v : Addr} {c : Coin} {st2 : Storage}
    (h : add_stake st t d v c = .ok st2) :
    update_stake st t d v c.amount false = .ok st2 := by
  unfold add_stake at h
  split at h
  · split at h
    · cases h
    · exact h
  · cases h

/-- A successful Undelegate returns exactly the storage produced by
remove_stake: the pushed unbonding queue is discarded. -/
theorem execute_undelegate_ok {st : Storage} {t : Nat} {s v : Addr} {c : Coin}
    {st2 : Storage} (h : execute_undelegate st t s v c = .ok st2) :
    remove_stake st t s v c = .ok st2 := by
  unfold execute_undelegate at h
  split at h
  · split at h
    · cases h
    · split at h
      · cases h
      · cases h; assumption
  · cases h

/-- Inversion of a successful WithdrawDelegatorReward: names every loaded
record and the exact written storage and minted amount. -/
theorem execute_withdraw_shape {st : Storage} {t : Nat} {s v : Addr} {st2 : Storage}
    {m : Nat} (h : execute_withdraw st t s v = .ok (st2, m)) :
    ∃ (si : StakingInfo) (vi0 : ValidatorInfo) (vobj : Validator) (vi : ValidatorInfo)
      (sh : Shares) (rew cr2 : Nat),
      st.staking_info = some si ∧
      alookup st.validator_info v = some vi0 ∧
      alookup st.validator_map v = some vobj ∧
      update_rewards t si vi0 vobj = some vi ∧
      alookup st.stakes (s, v) = some sh ∧
      Shares.rewards sh vi vi.calculated_rewards = some rew ∧
      decSub vi.calculated_rewards rew = some cr2 ∧
      st2 = { st with validator_info := (asave st.validator_info v
                { vi with calculated_rewards := cr2 }) } ∧
      m = mulUintDec 1 rew := by
  unfold execute_withdraw at h
  split at h
  · cases h
  · rename_i si hsi
    split at h
    · cases h
    · rename_i vi0 hvi0
      split at h
      · cases h
      · rename_i vobj hvobj
        split at h
        · cases h
        · rename_i vi hvi
          split at h
          · cases h
          · rename_i sh hsh
            split at h
            · cases h
            · rename_i rew hrew
              split at h
              · cases h
              · rename_i cr2 hcr2
                cases h
                exact ⟨si, vi0, vobj, vi, sh, rew, cr2, hsi, hvi0, hvobj, hvi, hsh,
                  hrew, hcr2, rfl, rfl⟩


/-- The ledger invariant of the data model: a validator staker set equals
exactly the set of delegators holding a stored delegation entry for it, and
validators without stored info have no delegation entries. -/
def stakerInv (st : Storage) : Prop :=
  ∀ v d, (∃ vi, alookup st.validator_info v = some vi ∧ d ∈ vi.stakers) ↔
    (alookup st.stakes (d, v)).isSome

/-- No delegation entry is ever kept as a zero row. -/
def noZeroRows (st : Storage) : Prop :=
  ∀ k s, alookup st.stakes k = some s → s.val ≠ 0

/-- Reformulation of the ledger invariant through the may_load default used
by update_stake. -/
theorem stakerInv_getD {st : Storage} (hinv : stakerInv st) (t : Nat) (v d : Addr) :
    (d ∈ ((alookup st.validator_info v).getD (ValidatorInfo.new t)).stakers) ↔
      (alookup st.stakes (d, v)).isSome := by
  have hi := hinv v d
  cases hv : alookup st.validator_info v with
  | none =>
    rw [hv] at hi
    simp only [reduceCtorEq, false_and, exists_false, false_iff] at hi
    simp [Option.getD_none, ValidatorInfo.new, hi]
  | some vi =>
    rw [hv] at hi
    simpa using hi

/-- update_stake preserves the ledger invariant and the absence of zero
rows. -/
theorem update_stake_preserves {st : Storage} {t : Nat} {d v : Addr} {a : Nat} {sb : Bool}
    {st2 : Storage} (hinv : stakerInv st) (hnz : noZeroRows st)
    (h : update_stake st t d v a sb = .ok st2) : stakerInv st2 ∧ noZeroRows st2 := by
  obtain ⟨si2, vi2, hstk, hcase⟩ := update_stake_shape h
  rcases hcase with ⟨hz, rfl⟩ | ⟨hznot, rfl⟩
  · constructor
    · intro w e
      dsimp only
      by_cases hw : w = v
      · subst hw
        rw [alookup_asave_self]
        by_cases he : e = d
        · subst he
          rw [alookup_aremove_self]
          simp [Finset.mem_erase]
        · rw [alookup_aremove_ne _ _ _ (by simp [he])]
          have hth := stakerInv_getD hinv t w e
          simp only [Option.some.injEq, exists_eq_left', Finset.mem_erase, hstk]
          constructor
          · intro hx; exact hth.mp hx.2
          · intro hx; exact ⟨he, hth.mpr hx⟩
      · rw [alookup_asave_ne _ _ _ _ hw, alookup_aremove_ne _ _ _ (by simp [hw])]
        exact hinv w e
    · intro k sh hk
      dsimp only at hk
      by_cases hke : k = (d, v)
      · subst hke; rw [alookup_aremove_self] at hk; cases hk
      · rw [alookup_aremove_ne _ _ _ hke] at hk
        exact hnz k sh hk
  · constructor
    · intro w e
      dsimp only
      by_cases hw : w = v
      · subst hw
        rw [alookup_asave_self]
        by_cases he : e = d
        · subst he
          rw [alookup_asave_self]
          simp [Finset.mem_insert]
        · rw [alookup_asave_ne _ _ _ _ (by simp [he])]
          have hth := stakerInv_getD hinv t w e
          simp only [Option.some.injEq, exists_eq_left', Finset.mem_insert, hstk]
          constructor
          · intro hx
            rcases hx with hx | hx
            · exact absurd hx he
            · exact hth.mp hx
          · intro hx; exact Or.inr (hth.mpr hx)
      · rw [alookup_asave_ne _ _ _ _ hw, alookup_asave_ne _ _ _ _ (by simp [hw])]
        exact hinv w e
    · intro k sh hk
      dsimp only at hk
      by_cases hke : k = (d, v)
      · subst hke
        rw [alookup_asave_self] at hk
        cases hk
        exact hznot
      · rw [alookup_asave_ne _ _ _ _ hke] at hk
        exact hnz k sh hk

/-- slash preserves the ledger invariant and the absence of zero rows. -/
theorem slash_preserves {st : Storage} {v : Addr} {p : Nat} {st2 : Storage}
    (hinv : stakerInv st) (hnz : noZeroRows st) (h : slash st v p = .ok st2) :
    stakerInv st2 ∧ noZeroRows st2 := by
  unfold slash at h
  split at h
  · cases h
  · rename_i vi hvi
    split at h
    · cases h
    · rename_i rem hrem
      split at h
      · cases h
        constructor
        · intro w e
          dsimp only
          by_cases hw : w = v
          · subst hw
            rw [alookup_asave_self]
            simp only [Option.some.injEq, exists_eq_left, Finset.not_mem_empty, false_iff]
            by_cases he : e ∈ vi.stakers
            · rw [alookup_filter_drop]
              · simp
              · intro b; simp [he]
            · rw [alookup_filter_keep]
              · have hi := hinv w e
                rw [hvi] at hi
                simp only [Option.some.injEq, exists_eq_left] at hi
                simp [← hi, he]
              · intro b; simp [he]
          · rw [alookup_asave_ne _ _ _ _ hw, alookup_filter_keep]
            · exact hinv w e
            · intro b; simp [hw]
        · intro k sh hk
          dsimp only at hk
          by_cases hks : k.2 = v ∧ k.1 ∈ vi.stakers
          · rw [show k = (k.1, k.2) from rfl, alookup_filter_drop] at hk
            · cases hk
            · intro b; simp [hks.1, hks.2]
          · rw [show k = (k.1, k.2) from rfl, alookup_filter_keep] at hk
            · exact hnz _ sh hk
            · intro b
              simp only [decide_eq_true_eq, not_and]
              intro h1 h2
              exact hks ⟨h1, h2⟩
      · cases h
        constructor
        · intro w e
          dsimp only
          by_cases hw : w = v
          · subst hw
            rw [alookup_asave_self]
            have hi := hinv w e
            rw [hvi] at hi
            simpa using hi
          · rw [alookup_asave_ne _ _ _ _ hw]
            exact hinv w e
        · intro k sh hk
          exact hnz k sh hk

/-- WithdrawDelegatorReward preserves the ledger invariant and the absence
of zero rows: it touches neither the delegation entries nor the staker
sets. -/
theorem execute_withdraw_preserves {st : Storage} {t : Nat} {s v : Addr} {st2 : Storage}
    {m : Nat} (hinv : stakerInv st) (hnz : noZeroRows st)
    (h : execute_withdraw st t s v = .ok (st2, m)) : stakerInv st2 ∧ noZeroRows st2 := by
  obtain ⟨si, vi0, vobj, vi, sh, rew, cr2, hsi, hvi0, hvobj, hvi, hsh, hrew, hcr2,
    rfl, rfl⟩ := execute_withdraw_shape h
  constructor
  · intro w e
    dsimp only
    by_cases hw : w = v
    · subst hw
      rw [alookup_asave_self]
      have hi := hinv w e
      rw [hvi0] at hi
      have hstk : vi.stakers = vi0.stakers := (update_rewards_fields hvi).1
      simpa [hstk] using hi
    · rw [alookup_asave_ne _ _ _ _ hw]
      exact hinv w e
  · intro k sh2 hk
    exact hnz k sh2 hk


/-- Validator record used by the concrete states below, mirroring the
registration used in the source tests. -/
def valOper : Validator :=
  { address := "testvaloper1"
    commission := decPercent 10
    max_commission := decPercent 20
    max_change_rate := decPercent 1 }

/-- The documented default staking parameters. -/
def defaultParams : StakingInfo :=
  { bonded_denom := "TOKEN", unbonding_time := 60, apr := decPercent 10 }

/-- A configured state with one registered validator and no delegations. -/
def baseSt : Storage :=
  { staking_info := some defaultParams
    stakes := []
    validator_map := [("testvaloper1", valOper)]
    validators := [valOper]
    validator_info := [("testvaloper1", ValidatorInfo.new 0)]
    unbonding_queue := none }

/-- Validator info after a single delegator staked 100 tokens at block time
zero: the source credits Decimal::one() as the first-staker shares. -/
def oneDelegatorVi : ValidatorInfo :=
  { stakers := {"delegator"}
    stake := 100
    last_rewards_calculation := 0
    total_shares := decOne
    calculated_rewards := 0 }

/-- State after a single delegator staked 100 tokens. -/
def oneDelegatorSt : Storage :=
  { baseSt with
      stakes := [(("delegator", "testvaloper1"), ⟨decOne⟩)]
      validator_info := [("testvaloper1", oneDelegatorVi)] }

/-- Claim C1: the first staker is credited one constant share.  With
total_stake zero the source shares_for returns Decimal::one() for every
amount, so the first delegator staking 200 tokens receives 1 share, not the
200 shares the claim, the source comment about a 1:1 ratio, and the
delegate event attribute new_shares demand. -/
theorem C1_first_staker_gets_constant_one_share :
    (ValidatorInfo.new 0).shares_for 200 = decOne ∧
      (ValidatorInfo.new 0).shares_for 200 ≠ decFromFrac 200 1 ∧
      decFromFrac 200 1 = 200 * decOne := by
  refine ⟨rfl, ?_, ?_⟩ <;> decide

/-- State whose persisted unbonding queue holds one entry due at five
seconds. -/
def queueSt : Storage :=
  { baseSt with unbonding_queue := some [("bob", 5 * NANOS_PER_SECOND, 100)] }

/-- Claim C3: ProcessQueue never persists the drained queue.  The sudo arm
returns the staking storage unchanged for every input; on the concrete
queue state a call at ten seconds pays the due entry, leaves it in the
stored queue, and a second call at the same time pays it again. -/
theorem C3_process_queue_never_persisted :
    (∀ (st : Storage) (t : Nat), (process_queue st t).1 = st) ∧
    (process_queue queueSt (10 * NANOS_PER_SECOND)).2 = [("bob", "TOKEN", 100)] ∧
    (process_queue queueSt (10 * NANOS_PER_SECOND)).1.unbonding_queue =
      some [("bob", 5 * NANOS_PER_SECOND, 100)] ∧
    (process_queue (process_queue queueSt (10 * NANOS_PER_SECOND)).1
        (10 * NANOS_PER_SECOND)).2 = [("bob", "TOKEN", 100)] := by
  refine ⟨fun st t => rfl, ?_, ?_, ?_⟩ <;> decide

/-- Storage after undelegating 50 of the 100 staked tokens from the one
delegator state: half a share burned, stake halved, queue still absent. -/
def undelegatedSt : Storage :=
  { baseSt with
      stakes := [(("delegator", "testvaloper1"), ⟨5 * 10 ^ 17⟩)]
      validator_info := [("testvaloper1",
        { stakers := {"delegator"}
          stake := 50
          last_rewards_calculation := 0
          total_shares := 5 * 10 ^ 17
          calculated_rewards := 0 })] }

/-- Claim C2: a successful Undelegate removes the stake but never persists
the mutated unbonding queue: the returned storage always carries the old
queue, and on the concrete one delegator state the stored queue is still
absent after undelegating 50 tokens, so the pushed entry is lost. -/
theorem C2_undelegate_entry_never_persisted :
    (∀ (st : Storage) (t : Nat) (s v : Addr) (c : Coin) (st2 : Storage),
      execute_undelegate st t s v c = .ok st2 →
        st2.unbonding_queue = st.unbonding_queue) ∧
    execute_undelegate oneDelegatorSt 0 "delegator" "testvaloper1" ⟨"TOKEN", 50⟩ =
      .ok undelegatedSt ∧
    undelegatedSt.unbonding_queue = none ∧
    oneDelegatorSt.unbonding_queue = none := by
  refine ⟨?_, by decide, rfl, rfl⟩
  intro st t s v c st2 h
  exact (update_stake_frame (remove_stake_ok (execute_undelegate_ok h))).1

/-- Witness for claim C2 at the concrete undelegation. -/
theorem C2_undelegate_entry_never_persisted_witness :
    undelegatedSt.unbonding_queue = oneDelegatorSt.unbonding_queue :=
  C2_undelegate_entry_never_persisted.1 oneDelegatorSt 0 "delegator" "testvaloper1"
    ⟨"TOKEN", 50⟩ undelegatedSt (by decide)

/-- Claim C7 counterexample: on a validator state with zero total shares
the stake conversion divides by zero and panics (modelled as none); it does
not return the zero token amount the claim states. -/
theorem C7_counterexample_stake_panics_on_zero_shares :
    Shares.stake ⟨decOne⟩
        { stakers := ∅, stake := 5, last_rewards_calculation := 0,
          total_shares := 0, calculated_rewards := 0 } = none ∧
      Shares.stake ⟨decOne⟩
        { stakers := ∅, stake := 5, last_rewards_calculation := 0,
          total_shares := 0, calculated_rewards := 0 } ≠ some 0 := by
  exact ⟨rfl, by decide⟩

/-- Claim C7 amended: the stake conversion returns
floor(total_stake * floor(shares * 10 pow 18 / total_shares) / 10 pow 18)
whenever total_shares is nonzero, and panics by dividing by zero (none)
when total_shares is zero. -/
theorem C7_stake_value_amended (s : Shares) (vi : ValidatorInfo) :
    (vi.total_shares ≠ 0 →
      Shares.stake s vi =
        some (mulUintDec vi.stake (decFromFrac s.val vi.total_shares))) ∧
    (vi.total_shares = 0 → Shares.stake s vi = none) := by
  constructor
  · intro h; simp [Shares.stake, decDiv, h]
  · intro h; simp [Shares.stake, decDiv, h]

/-- Witness for claim C7 at one share of a three share pool worth three
tokens. -/
theorem C7_stake_value_amended_witness :
    (3 * decOne ≠ 0) ∧
      Shares.stake ⟨decOne⟩
          { stakers := ∅, stake := 3, last_rewards_calculation := 0,
            total_shares := 3 * decOne, calculated_rewards := 0 } =
        some (mulUintDec 3 (decFromFrac decOne (3 * decOne))) :=
  ⟨by decide,
    (C7_stake_value_amended ⟨decOne⟩
      { stakers := ∅, stake := 3, last_rewards_calculation := 0,
        total_shares := 3 * decOne, calculated_rewards := 0 }).1 (by decide)⟩

/-- The one delegator state with the staking parameters never configured. -/
def noSetupSt : Storage := { oneDelegatorSt with staking_info := none }

/-- Claim C9: get_staking_info does fall back to the documented defaults,
and Delegate, Undelegate and the staking queries therefore work without
setup, but WithdrawDelegatorReward loads the parameters with Item::load and
fails on the unconfigured state even though the identical configured state
succeeds. -/
theorem C9_withdraw_fails_without_setup :
    get_staking_info noSetupSt = defaultParams ∧
    get_staking_info { noSetupSt with staking_info := some defaultParams } =
      defaultParams ∧
    execute_withdraw noSetupSt 0 "delegator" "testvaloper1" =
      .error .stakingInfoNotFound ∧
    oneDelegatorSt = { noSetupSt with staking_info := some defaultParams } ∧
    execute_withdraw oneDelegatorSt 0 "delegator" "testvaloper1" =
      .ok (oneDelegatorSt, 0) ∧
    execute_undelegate noSetupSt 0 "delegator" "testvaloper1" ⟨"TOKEN", 50⟩ =
      .ok { undelegatedSt with staking_info := none } ∧
    execute_undelegate noSetupSt 0 "delegator" "testvaloper1" ⟨"OTHER", 50⟩ =
      .error .wrongDenom := by
  refine ⟨rfl, rfl, rfl, by decide, by decide, by decide, by decide⟩


/-- Claim C4: the reward checkpoint is a no-op when the block time has not
advanced past the stored checkpoint; otherwise the net reward over the
elapsed seconds is stake times apr times elapsed over seconds_per_year
minus commission, computed on the current stake, and it is folded into the
accumulator with the checkpoint advanced only when it reaches one whole
token, both fields staying untouched below that threshold so the sub unit
amount is recomputed from the old timestamp next time. -/
theorem C4_update_rewards_checkpoint (t : Nat) (info : StakingInfo) (vi : ValidatorInfo)
    (vobj : Validator) :
    (t ≤ vi.last_rewards_calculation → update_rewards t info vi vobj = some vi) ∧
    (vi.last_rewards_calculation < t →
      ∀ nr, calculate_rewards t vi.last_rewards_calculation info.apr vobj.commission
          vi.stake = some nr →
        (decOne ≤ nr →
          update_rewards t info vi vobj =
            some { vi with last_rewards_calculation := t
                           calculated_rewards := vi.calculated_rewards + nr }) ∧
        (nr < decOne → update_rewards t info vi vobj = some vi)) ∧
    (∀ since, tsSeconds since * NANOS_PER_SECOND ≤ t →
      calculate_rewards t since info.apr vobj.commission vi.stake =
        decSub
          (decFromFrac
            (decMul (decMul (decFromFrac vi.stake 1) info.apr)
              (decFromFrac (tsSeconds t - tsSeconds since) 1))
            (decFromFrac seconds_per_year 1))
          (decMul
            (decFromFrac
              (decMul (decMul (decFromFrac vi.stake 1) info.apr)
                (decFromFrac (tsSeconds t - tsSeconds since) 1))
              (decFromFrac seconds_per_year 1))
            vobj.commission)) := by
  refine ⟨?_, ?_, ?_⟩
  · intro h
    simp [update_rewards, h]
  · intro hlt nr hcr
    have hn : ¬t ≤ vi.last_rewards_calculation := Nat.not_le.mpr hlt
    constructor
    · intro h1
      simp [update_rewards, hn, hcr, h1]
    · intro h1
      have h2 : ¬decOne ≤ nr := Nat.not_le.mpr h1
      simp [update_rewards, hn, hcr, h2]
  · intro since hs
    have hdiv : tsSeconds (t - tsSeconds since * NANOS_PER_SECOND)
        = tsSeconds t - tsSeconds since := by
      unfold tsSeconds at hs ⊢
      rw [Nat.mul_comm (since / NANOS_PER_SECOND) NANOS_PER_SECOND] at hs ⊢
      exact Nat.sub_mul_div t NANOS_PER_SECOND (since / NANOS_PER_SECOND) hs
    simp [calculate_rewards, tsMinusSeconds, hs, hdiv]

/-- Validator info with 200 staked tokens and a checkpoint at time zero,
used for the claim C4 witness. -/
def twoHundredVi : ValidatorInfo :=
  { stakers := {"delegator"}
    stake := 200
    last_rewards_calculation := 0
    total_shares := decOne
    calculated_rewards := 0 }

/-- Witness for claim C4: one year on 200 staked tokens at ten percent apr
and ten percent commission accrues exactly 18 whole tokens, which crosses
the threshold, so the accumulator and the checkpoint both advance. -/
theorem C4_update_rewards_checkpoint_witness :
    (0 : Nat) < seconds_per_year * NANOS_PER_SECOND ∧
    calculate_rewards (seconds_per_year * NANOS_PER_SECOND) 0 (decPercent 10)
      (decPercent 10) 200 = some (18 * decOne) ∧
    decOne ≤ 18 * decOne ∧
    update_rewards (seconds_per_year * NANOS_PER_SECOND) defaultParams twoHundredVi
        valOper =
      some { twoHundredVi with
              last_rewards_calculation := seconds_per_year * NANOS_PER_SECOND
              calculated_rewards := twoHundredVi.calculated_rewards + 18 * decOne } :=
  ⟨by decide, by decide, by decide,
    ((C4_update_rewards_checkpoint (seconds_per_year * NANOS_PER_SECOND) defaultParams
        twoHundredVi valOper).2.1 (by decide) (18 * decOne) (by decide)).1 (by decide)⟩

/-- Claim C5: slashing an existing validator with percentage at most one
scales its stake to stake times one minus the percentage; the scaling
itself changes no delegation entry, no staker set and no total shares, and
when the scaled stake is exactly zero every delegation entry of the
validator is deleted, its staker set is emptied and its total shares reset
to zero; entries of other validators are never touched. -/
theorem C5_slash_scales_stake (st : Storage) (v : Addr) (p : Nat) (vi : ValidatorInfo)
    (hvi : alookup st.validator_info v = some vi) (hp : p ≤ decOne)
    (hcover : ∀ d : Addr, (alookup st.stakes (d, v)).isSome → d ∈ vi.stakers) :
    ∃ st2, slash st v p = .ok st2 ∧
      ∃ vi2, alookup st2.validator_info v = some vi2 ∧
        vi2.stake = mulUintDec vi.stake (decOne - p) ∧
        (vi2.stake ≠ 0 →
          st2.stakes = st.stakes ∧ vi2.total_shares = vi.total_shares ∧
            vi2.stakers = vi.stakers ∧
            vi2.calculated_rewards = vi.calculated_rewards) ∧
        (vi2.stake = 0 →
          (∀ d : Addr, alookup st2.stakes (d, v) = none) ∧
            vi2.stakers = ∅ ∧ vi2.total_shares = 0) ∧
        (∀ (d w : Addr), w ≠ v →
          alookup st2.stakes (d, w) = alookup st.stakes (d, w)) := by
  have hdec : decSub decOne p = some (decOne - p) := by simp [decSub, hp]
  by_cases hz : mulUintDec vi.stake (decOne - p) = 0
  · have hs : slash st v p = .ok { st with
        stakes := (st.stakes.filter fun e => ¬(e.1.2 = v ∧ e.1.1 ∈ vi.stakers))
        validator_info := asave st.validator_info v
          { vi with stake := mulUintDec vi.stake (decOne - p), stakers := ∅,
                    total_shares := 0 } } := by
      simp [slash, hvi, hdec, hz]
    refine ⟨_, hs, ?_⟩
    refine ⟨_, alookup_asave_self _ _ _, rfl, ?_, ?_, ?_⟩
    · intro hne
      exact absurd hz hne
    · intro _
      refine ⟨?_, rfl, rfl⟩
      intro d
      dsimp only
      by_cases hd : d ∈ vi.stakers
      · exact alookup_filter_drop _ _ _ (fun b => by simp [hd])
      · rw [alookup_filter_keep _ _ _ (fun b => by simp [hd])]
        exact Option.not_isSome_iff_eq_none.mp (fun hh => hd (hcover d hh))
    · intro d w hw
      dsimp only
      exact alookup_filter_keep _ _ _ (fun b => by simp [hw])
  · have hs : slash st v p = .ok { st with
        validator_info := asave st.validator_info v
          { vi with stake := mulUintDec vi.stake (decOne - p) } } := by
      simp [slash, hvi, hdec, hz]
    refine ⟨_, hs, ?_⟩
    refine ⟨_, alookup_asave_self _ _ _, rfl, ?_, ?_, ?_⟩
    · intro _
      exact ⟨rfl, rfl, rfl, rfl⟩
    · intro h0
      exact absurd h0 hz
    · intro d w _
      rfl

/-- Witness for claim C5: slashing the one delegator validator by fifty
percent halves its stake while the delegation entry and the share ledger
stay untouched. -/
theorem C5_slash_scales_stake_witness :
    ∃ st2, slash oneDelegatorSt "testvaloper1" (decPercent 50) = .ok st2 ∧
      ∃ vi2, alookup st2.validator_info "testvaloper1" = some vi2 ∧
        vi2.stake = mulUintDec oneDelegatorVi.stake (decOne - decPercent 50) ∧
        (vi2.stake ≠ 0 →
          st2.stakes = oneDelegatorSt.stakes ∧
            vi2.total_shares = oneDelegatorVi.total_shares ∧
            vi2.stakers = oneDelegatorVi.stakers ∧
            vi2.calculated_rewards = oneDelegatorVi.calculated_rewards) ∧
        (vi2.stake = 0 →
          (∀ d : Addr, alookup st2.stakes (d, "testvaloper1") = none) ∧
            vi2.stakers = ∅ ∧ vi2.total_shares = 0) ∧
        (∀ (d w : Addr), w ≠ "testvaloper1" →
          alookup st2.stakes (d, w) = alookup oneDelegatorSt.stakes (d, w)) := by
  refine C5_slash_scales_stake oneDelegatorSt "testvaloper1" (decPercent 50)
    oneDelegatorVi (by decide) (by decide) ?_
  intro d h
  by_cases hd : d = "delegator"
  · subst hd
    simp [oneDelegatorVi]
  · exfalso
    have hne : (("delegator", "testvaloper1") : Addr × Addr) ≠ (d, "testvaloper1") := by
      intro hh
      exact hd (congrArg Prod.fst hh).symm
    simp [oneDelegatorSt, baseSt, alookup, hne] at h

/-- State with two delegators holding one share each of a 200 token pool. -/
def twoDelegatorSt : Storage :=
  { baseSt with
      stakes := [(("delegatorA", "testvaloper1"), ⟨decOne⟩),
        (("delegatorB", "testvaloper1"), ⟨decOne⟩)]
      validator_info := [("testvaloper1",
        { stakers := {"delegatorA", "delegatorB"}
          stake := 200
          last_rewards_calculation := 0
          total_shares := 2 * decOne
          calculated_rewards := 0 })] }

/-- The validator info stored in the two delegator state. -/
def twoDelegatorVi : ValidatorInfo :=
  { stakers := {"delegatorA", "delegatorB"}
    stake := 200
    last_rewards_calculation := 0
    total_shares := 2 * decOne
    calculated_rewards := 0 }

/-- Claim C6 counterexample: removing 150 tokens when the delegator holds
only one of the two shares (100 of 200 tokens) aborts with the modelled
Decimal subtraction panic, not with a returned InsufficientStake error; the
validator level stake of 200 would not underflow, so the returned error
path of checked_sub is not the one that fires. -/
theorem C6_counterexample_insufficient_shares_panics :
    remove_stake twoDelegatorSt 0 "delegatorA" "testvaloper1" ⟨"TOKEN", 150⟩ =
      .error .panicSharesUnderflow ∧
    StakeError.isPanic .panicSharesUnderflow = true ∧
    (150 : Nat) ≤ 200 := by
  decide

/-- Claim C6 amended: a wrong denomination or a zero amount is rejected
with a returned (non panic) error before any persisted record is mutated,
and when the share equivalent of the requested amount at the current price
exceeds the delegator share balance the call aborts with the Decimal
subtraction panic instead of returning an error; in every failure case no
storage is produced, so nothing is persisted. -/
theorem C6_remove_stake_validation_and_panic (st : Storage) (t : Nat) (d v : Addr)
    (c : Coin) (vi : ValidatorInfo)
    (hrw : update_stake_rewards st t v
        ((alookup st.validator_info v).getD (ValidatorInfo.new t)) c.amount = .ok vi)
    (hden : c.denom = (get_staking_info st).bonded_denom)
    (hnz : c.amount ≠ 0)
    (hins : ((alookup st.stakes (d, v)).getD ⟨0⟩).val < vi.shares_for c.amount) :
    remove_stake st t d v c = .error .panicSharesUnderflow ∧
    StakeError.isPanic .panicSharesUnderflow = true ∧
    (∀ c2 : Coin, c2.denom ≠ (get_staking_info st).bonded_denom →
      remove_stake st t d v c2 = .error .wrongDenom ∧
        StakeError.isPanic .wrongDenom = false) ∧
    (∀ c2 : Coin, c2.denom = (get_staking_info st).bonded_denom → c2.amount = 0 →
      remove_stake st t d v c2 = .error .zeroAmount ∧
        StakeError.isPanic .zeroAmount = false) := by
  refine ⟨?_, rfl, ?_, ?_⟩
  · have hsub : decSub ((alookup st.stakes (d, v)).getD ⟨0⟩).val (vi.shares_for c.amount)
        = none := by simp [decSub, Nat.not_le.mpr hins]
    simp [remove_stake, hden, hnz, update_stake, hrw, update_stake_math, hsub]
  · intro c2 h2
    exact ⟨by simp [remove_stake, h2], rfl⟩
  · intro c2 h2 h0
    exact ⟨by simp [remove_stake, h2, h0], rfl⟩

/-- Witness for claim C6 at the two delegator state. -/
theorem C6_remove_stake_validation_and_panic_witness :
    remove_stake twoDelegatorSt 0 "delegatorA" "testvaloper1" ⟨"OTHER", 150⟩ =
      .error .wrongDenom ∧
    remove_stake twoDelegatorSt 0 "delegatorA" "testvaloper1" ⟨"TOKEN", 0⟩ =
      .error .zeroAmount := by
  have h := C6_remove_stake_validation_and_panic twoDelegatorSt 0 "delegatorA"
    "testvaloper1" ⟨"TOKEN", 150⟩ twoDelegatorVi (by decide) (by decide) (by decide)
    (by decide)
  exact ⟨(h.2.2.1 ⟨"OTHER", 150⟩ (by decide)).1, (h.2.2.2 ⟨"TOKEN", 0⟩ rfl rfl).1⟩


/-- The two delegator validator with three whole tokens of accrued rewards
in the accumulator. -/
def accruedVi : ValidatorInfo :=
  { stakers := {"delegatorA", "delegatorB"}
    stake := 200
    last_rewards_calculation := 0
    total_shares := 2 * decOne
    calculated_rewards := 3 * decOne }

/-- The two delegator state carrying the accrued rewards accumulator. -/
def accruedSt : Storage :=
  { twoDelegatorSt with validator_info := [("testvaloper1", accruedVi)] }

/-- Claim C10: a successful withdraw debits the accumulator by the full
fixed point pro rata reward while minting only its truncation to whole
tokens; on the concrete state where the pro rata reward is one and a half
tokens the delegator is minted one token while one and a half tokens leave
the accumulator, so the minted amount is strictly smaller than the debit
and the fractional difference is gone. -/
theorem C10_withdraw_debits_full_reward_mints_truncated
    (st : Storage) (t : Nat) (s v : Addr) (si : StakingInfo) (vi0 vi : ValidatorInfo)
    (vobj : Validator) (sh : Shares) (rew cr2 : Nat)
    (h1 : st.staking_info = some si)
    (h2 : alookup st.validator_info v = some vi0)
    (h3 : alookup st.validator_map v = some vobj)
    (h4 : update_rewards t si vi0 vobj = some vi)
    (h5 : alookup st.stakes (s, v) = some sh)
    (h6 : Shares.rewards sh vi vi.calculated_rewards = some rew)
    (h7 : decSub vi.calculated_rewards rew = some cr2) :
    execute_withdraw st t s v =
      .ok ({ st with validator_info := (asave st.validator_info v
              { vi with calculated_rewards := cr2 }) }, rew / DECIMAL_FRACTIONAL) ∧
    cr2 = vi.calculated_rewards - rew ∧
    rew / DECIMAL_FRACTIONAL * DECIMAL_FRACTIONAL ≤ rew ∧
    execute_withdraw accruedSt 0 "delegatorA" "testvaloper1" =
      .ok ({ accruedSt with validator_info := [("testvaloper1",
          { accruedVi with calculated_rewards := 15 * 10 ^ 17 })] }, 1) ∧
    1 * DECIMAL_FRACTIONAL < 15 * 10 ^ 17 ∧
    3 * decOne - 15 * 10 ^ 17 = 15 * 10 ^ 17 := by
  refine ⟨?_, ?_, Nat.div_mul_le_self rew DECIMAL_FRACTIONAL, by decide, by decide,
    by decide⟩
  · simp [execute_withdraw, h1, h2, h3, h4, h5, h6, h7, mulUintDec, Nat.one_mul]
  · unfold decSub at h7
    split at h7
    · cases h7
      rfl
    · cases h7

/-- Witness for claim C10 at the accrued rewards state. -/
theorem C10_withdraw_debits_full_reward_mints_truncated_witness :
    execute_withdraw accruedSt 0 "delegatorA" "testvaloper1" =
      .ok ({ accruedSt with validator_info := (asave accruedSt.validator_info
              "testvaloper1" { accruedVi with calculated_rewards := 15 * 10 ^ 17 }) },
        (15 * 10 ^ 17) / DECIMAL_FRACTIONAL) :=
  (C10_withdraw_debits_full_reward_mints_truncated accruedSt 0 "delegatorA"
    "testvaloper1" defaultParams accruedVi accruedVi valOper ⟨decOne⟩ (15 * 10 ^ 17)
    (15 * 10 ^ 17) (by decide) (by decide) (by decide) (by decide) (by decide)
    (by decide) (by decide)).1

/-- The configured base state satisfies the ledger invariant. -/
theorem baseSt_stakerInv : stakerInv baseSt := by
  intro v d
  constructor
  · rintro ⟨vi, hvi, hd⟩
    simp only [baseSt, alookup] at hvi
    split at hvi
    · cases hvi
      simp [ValidatorInfo.new] at hd
    · cases hvi
  · intro h
    simp [baseSt, alookup] at h

/-- The configured base state has no zero rows. -/
theorem baseSt_noZeroRows : noZeroRows baseSt := by
  intro k sh h
  simp [baseSt, alookup] at h

/-- Claim C8: the staker set of every validator equals exactly the set of
delegators holding a stored delegation entry for it, and no zero rows are
kept, after every mutating operation: the core share update of add_stake
and remove_stake, the Undelegate and Redelegate arms, slash with and
without the percentage validation, and WithdrawDelegatorReward; a zero
resulting balance is deleted together with its staker set membership. -/
theorem C8_staker_sets_match_entries (st : Storage) (hinv : stakerInv st)
    (hnz : noZeroRows st) :
    (∀ (t : Nat) (d v : Addr) (a : Nat) (sb : Bool) (st2 : Storage),
      update_stake st t d v a sb = .ok st2 → stakerInv st2 ∧ noZeroRows st2) ∧
    (∀ (t : Nat) (d v : Addr) (c : Coin) (st2 : Storage),
      add_stake st t d v c = .ok st2 → stakerInv st2 ∧ noZeroRows st2) ∧
    (∀ (t : Nat) (d v : Addr) (c : Coin) (st2 : Storage),
      remove_stake st t d v c = .ok st2 → stakerInv st2 ∧ noZeroRows st2) ∧
    (∀ (t : Nat) (d v : Addr) (c : Coin) (st2 : Storage),
      execute_undelegate st t d v c = .ok st2 → stakerInv st2 ∧ noZeroRows st2) ∧
    (∀ (t : Nat) (d v1 v2 : Addr) (c : Coin) (st2 : Storage),
      execute_redelegate st t d v1 v2 c = .ok st2 → stakerInv st2 ∧ noZeroRows st2) ∧
    (∀ (v : Addr) (p : Nat) (st2 : Storage),
      slash st v p = .ok st2 → stakerInv st2 ∧ noZeroRows st2) ∧
    (∀ (v : Addr) (p : Nat) (st2 : Storage),
      sudo_slash st v p = .ok st2 → stakerInv st2 ∧ noZeroRows st2) ∧
    (∀ (t : Nat) (s v : Addr) (st2 : Storage) (m : Nat),
      execute_withdraw st t s v = .ok (st2, m) → stakerInv st2 ∧ noZeroRows st2) := by
  refine ⟨?_, ?_, ?_, ?_, ?_, ?_, ?_, ?_⟩
  · intro t d v a sb st2 h
    exact update_stake_preserves hinv hnz h
  · intro t d v c st2 h
    exact update_stake_preserves hinv hnz (add_stake_ok h)
  · intro t d v c st2 h
    exact update_stake_preserves hinv hnz (remove_stake_ok h)
  · intro t d v c st2 h
    exact update_stake_preserves hinv hnz (remove_stake_ok (execute_undelegate_ok h))
  · intro t d v1 v2 c st2 h
    unfold execute_redelegate at h
    split at h
    · cases h
    · rename_i stmid hrem
      have hmid := update_stake_preserves hinv hnz (remove_stake_ok hrem)
      exact update_stake_preserves hmid.1 hmid.2 (add_stake_ok h)
  · intro v p st2 h
    exact slash_preserves hinv hnz h
  · intro v p st2 h
    unfold sudo_slash at h
    split at h
    · exact slash_preserves hinv hnz h
    · cases h
  · intro t s v st2 m h
    exact execute_withdraw_preserves hinv hnz h

/-- Witness for claim C8: delegating 100 tokens on the configured base
state yields the one delegator state, and the invariants still hold
there. -/
theorem C8_staker_sets_match_entries_witness :
    stakerInv oneDelegatorSt ∧ noZeroRows oneDelegatorSt :=
  (C8_staker_sets_match_entries baseSt baseSt_stakerInv baseSt_noZeroRows).1 0
    "delegator" "testvaloper1" 100 false oneDelegatorSt (by decide)

end CW
